import Mathlib

/-!
Verification of the VitalForge recommendation/analytics pipeline
(`vitalforge-dashboard/recommendations.py`) against its specification.

Shallow embedding conventions:
* Python floats are modelled as exact rationals (`ℚ`); `round` is modelled
  exactly as Python's banker's rounding (half to even).
* A metric record `{"date": "YYYY-MM-DD", "value": v}` is modelled as a
  `MetricPoint` whose `date` is the calendar-day ordinal (an `ℤ`); the store
  accessor only yields valid dates and drops null values, so values are plain
  rationals.  `datetime.now().date()` becomes an explicit `today : ℤ` argument.
* Operations that can raise in Python (indexing `l[-1]`, `max` of an empty
  list, `round(None)`) are modelled in the `Option` monad: a `none` result
  marks a crash.  Totality of `run_rules` is then a theorem, not an assumption.
* Display formatting of numbers inside human-readable messages (float
  rendering, thousands separators) is abstracted to the `ℚ`/`ℤ` `toString`;
  the numbers themselves are the exact values the source interpolates.
-/

namespace VitalForge

/-- Python `round(x)` on an exact rational: banker's rounding, half to even. -/
def pyRound (x : ℚ) : ℤ :=
  let f := ⌊x⌋
  let frac := x - (f : ℚ)
  if frac < 1/2 then f
  else if 1/2 < frac then f + 1
  else if f % 2 = 0 then f else f + 1

/-- Python `round(x, d)`: round to `d` decimal places, half to even. -/
def pyRoundTo (x : ℚ) (d : ℕ) : ℚ :=
  (pyRound (x * 10 ^ d) : ℚ) / 10 ^ d

/-- Python truthiness of an optional float: `None` and `0.0` are falsy. -/
def truthyQ : Option ℚ → Bool
  | none => false
  | some x => decide (x ≠ 0)

/-- Python `l[-n:]`: the trailing `n` elements.  For `n = 0` Python gives the
whole list (`l[-0:] = l[0:]`); no call site in the source uses `n = 0`. -/
def lastSlice (l : List α) (n : ℕ) : List α :=
  if n = 0 then l else l.drop (l.length - n)

/-- Python `l[-a:-b]` for `0 < b ≤ a`: elements with index in
`[max(0, len-a), max(0, len-b))`. -/
def midSlice (l : List α) (a b : ℕ) : List α :=
  (l.take (l.length - b)).drop (l.length - a)

/-- One point of a `MetricSeries`: a calendar day (as a day ordinal) and the
non-null value recorded on it. -/
structure MetricPoint where
  date : ℤ
  value : ℚ
deriving DecidableEq

/-- The `MetricSet` produced by `get_all_metrics`: the fixed enumerated
mapping of the ten metric names to their (possibly empty) series. -/
structure MetricSet where
  sleep_duration : List MetricPoint := []
  sleep_score : List MetricPoint := []
  resting_hr : List MetricPoint := []
  hrv : List MetricPoint := []
  body_battery : List MetricPoint := []
  stress : List MetricPoint := []
  vo2max : List MetricPoint := []
  weight : List MetricPoint := []
  training_load : List MetricPoint := []
  steps : List MetricPoint := []
deriving DecidableEq

/-- A `Finding` produced by the rules engine.  The `data` payload maps keys to
optional numbers (`none` models a JSON `null`). -/
structure Finding where
  category : String
  severity : String
  rule : String
  message : String
  data : List (String × Option ℚ)
deriving DecidableEq

/-- A `Recommendation` as returned to the caller. -/
structure Recommendation where
  title : String
  text : String
  severity : String
  metrics : List String
deriving DecidableEq

/-- `avg`: arithmetic mean, `None` on the empty list.  The source first drops
`None` entries; the store accessor has already removed them (null-filtering in
`_get_metric`), so the input here is a plain list of rationals. -/
def avg (values : List ℚ) : Option ℚ :=
  if values = [] then none else some (values.sum / values.length)

/-- `[d["value"] for d in data]`. -/
def seriesValues (data : List MetricPoint) : List ℚ :=
  data.map MetricPoint.value

/-- `recent_values(data, n) = [d["value"] for d in data[-n:]]`. -/
def recent_values (data : List MetricPoint) (n : ℕ) : List ℚ :=
  (lastSlice data n).map MetricPoint.value

/-- The denominator of the least-squares slope: the sum of squared index
deviations from the mean index, `sum((i - x_mean) ** 2 for i in range(n))`. -/
def slope_den (n : ℕ) : ℚ :=
  ∑ i in Finset.range n, ((i : ℚ) - ((n : ℚ) - 1) / 2) ^ 2

/-- `trend_slope`: ordinary-least-squares slope of value against index over
the last `n` points; `None` below 3 points, and `None` on a zero denominator
(`num / den if den else None`). -/
def trend_slope (data : List MetricPoint) (n : ℕ := 14) : Option ℚ :=
  let pts := lastSlice data n
  if pts.length < 3 then none
  else
    let vals := pts.map MetricPoint.value
    let n_pts := vals.length
    let x_mean : ℚ := ((n_pts : ℚ) - 1) / 2
    let y_mean : ℚ := vals.sum / (n_pts : ℚ)
    let num := ∑ i in Finset.range n_pts, ((i : ℚ) - x_mean) * (vals.getD i 0 - y_mean)
    let den := slope_den n_pts
    if den = 0 then none else some (num / den)

/-- `consecutive_below`: walking backward over the last `from_end` points,
count how many trailing points have `value < threshold`, stopping at the first
that does not.  Dates are never examined. -/
def consecutive_below (data : List MetricPoint) (threshold : ℚ)
    (from_end : ℕ := 7) : ℕ :=
  (((lastSlice data from_end).reverse).takeWhile
    (fun d => decide (d.value < threshold))).length

/-- `consecutive_above`: the mirror of `consecutive_below` with
`value > threshold`. -/
def consecutive_above (data : List MetricPoint) (threshold : ℚ)
    (from_end : ℕ := 7) : ℕ :=
  (((lastSlice data from_end).reverse).takeWhile
    (fun d => decide (threshold < d.value))).length

/-- `l[-1]["value"]` as an optional value. -/
def lastVal (l : List MetricPoint) : Option ℚ :=
  l.getLast?.map MetricPoint.value

/-! ## Rules engine

`run_rules` is rendered block by block, in the source's append order: sleep,
recovery, stress, body composition, activity, correlation.  A block whose body
performs a Python-partial operation (indexing, `max` of a list, `round` of a
possibly-`None` average) lives in the `Option` monad; the others are pure. -/

/-- Sleep block: `sleep_low_duration` and `sleep_declining`
(`recommendations.py` lines 117-139). -/
def sleepDurBlock (sleep_dur : List MetricPoint) : Option (List Finding) :=
  if sleep_dur = [] then some [] else do
    let f1 ←
      (let consec := consecutive_below sleep_dur (7 * 3600) 7
       if 3 ≤ consec then do
         let recent_avg_hrs : Option ℚ ←
           if recent_values sleep_dur 7 = [] then some none
           else do
             let a ← avg (recent_values sleep_dur 7)
             some (some (pyRoundTo (a / 3600) 1))
         some [{ category := "sleep", severity := "warning",
                 rule := "sleep_low_duration",
                 message := s!"Sleep under 7 hours for {consec} consecutive nights",
                 data := [("consecutive_days", some (consec : ℚ)),
                          ("recent_avg_hrs", recent_avg_hrs)] }]
       else some [])
    let f2 :=
      match trend_slope sleep_dur 14 with
      | some slope =>
        if slope < -120 then
          [{ category := "sleep", severity := "warning", rule := "sleep_declining",
             message := "Sleep duration trending downward over the past 2 weeks",
             data := [("trend_min_per_day", some (pyRoundTo (slope / 60) 1))] }]
        else []
      | none => []
    some (f1 ++ f2)

/-- Sleep block: `sleep_low_score` (lines 141-151).  `round(avg(...))` would
raise on `None`, hence the `Option` bind. -/
def sleepScoreBlock (sleep_score : List MetricPoint) : Option (List Finding) :=
  if sleep_score = [] then some []
  else
    let consec := consecutive_below sleep_score 70 7
    if 3 ≤ consec then do
      let a ← avg (recent_values sleep_score 7)
      let ra := pyRound a
      some [{ category := "sleep", severity := "warning", rule := "sleep_low_score",
              message := s!"Sleep score below 70 for {consec} consecutive days",
              data := [("consecutive_days", some (consec : ℚ)),
                       ("recent_avg", some (ra : ℚ))] }]
    else some []

/-- Recovery block: `hrv_below_baseline` and `hrv_weekly_drop`
(lines 154-180).  All partial operations here sit behind truthiness guards,
so the block is pure. -/
def hrvBlock (hrv_data : List MetricPoint) : List Finding :=
  if hrv_data = [] ∨ hrv_data.length < 7 then []
  else
    let avg_30 := avg (seriesValues hrv_data)
    let avg_7 := avg (recent_values hrv_data 7)
    let prev_7 := if 14 ≤ hrv_data.length then
        avg (seriesValues (midSlice hrv_data 14 7)) else none
    let f1 :=
      match avg_30 with
      | some a30 =>
        if a30 ≠ 0 then
          let consec := consecutive_below hrv_data a30 10
          if 3 ≤ consec then
            let current_avg : Option ℚ :=
              match avg_7 with
              | some a7 => if a7 ≠ 0 then some ((pyRound a7 : ℤ) : ℚ) else none
              | none => none
            [{ category := "recovery", severity := "warning",
               rule := "hrv_below_baseline",
               message := s!"HRV below your baseline for {consec} consecutive days",
               data := [("consecutive_days", some (consec : ℚ)),
                        ("baseline", some ((pyRound a30 : ℤ) : ℚ)),
                        ("current_avg", current_avg)] }]
          else []
        else []
      | none => []
    let f2 :=
      match prev_7, avg_7 with
      | some p7, some a7 =>
        if p7 ≠ 0 ∧ a7 ≠ 0 ∧ 0 < p7 then
          let pct_change := ((a7 - p7) / p7) * 100
          if pct_change < -15 then
            let pctAbs := (pyRound pct_change).natAbs
            [{ category := "recovery", severity := "alert", rule := "hrv_weekly_drop",
               message := s!"HRV dropped {pctAbs}% week-over-week",
               data := [("this_week", some ((pyRound a7 : ℤ) : ℚ)),
                        ("last_week", some ((pyRound p7 : ℤ) : ℚ)),
                        ("pct_change", some (pyRoundTo pct_change 1))] }]
          else []
        else []
      | _, _ => []
    f1 ++ f2

/-- Recovery block: `rhr_elevated` and `rhr_trending_up` (lines 182-204).
`rhr_data[-1]` is a partial indexing, modelled with `getLast?`. -/
def rhrBlock (rhr_data : List MetricPoint) : Option (List Finding) :=
  if rhr_data = [] ∨ rhr_data.length < 7 then some []
  else do
    let avg_30 := avg (seriesValues rhr_data)
    let latestP ← rhr_data.getLast?
    let latest := latestP.value
    let f1 :=
      match avg_30 with
      | some a30 =>
        if a30 ≠ 0 ∧ a30 * (11/10) < latest then
          let pct := pyRound (((latest - a30) / a30) * 100)
          let base := pyRound a30
          [{ category := "recovery", severity := "warning", rule := "rhr_elevated",
             message := s!"Resting HR at {latest} bpm, {pct}% above your average ({base} bpm)",
             data := [("current", some latest), ("baseline", some ((base : ℤ) : ℚ))] }]
        else []
      | none => []
    let f2 :=
      match trend_slope rhr_data 14 with
      | some slope =>
        if (1/5 : ℚ) < slope then
          [{ category := "recovery", severity := "warning", rule := "rhr_trending_up",
             message := "Resting heart rate trending upward over the past 2 weeks",
             data := [("trend_bpm_per_day", some (pyRoundTo slope 2))] }]
        else []
      | none => []
    some (f1 ++ f2)

/-- Recovery block: `body_battery_low` (lines 206-216).  `max` of the recent
values is partial, modelled with `List.max?`. -/
def bbBlock (bb_data : List MetricPoint) : Option (List Finding) :=
  if bb_data = [] then some []
  else
    let consec := consecutive_below bb_data 80 7
    if 3 ≤ consec then do
      let recent_high ← (recent_values bb_data 3).max?
      some [{ category := "recovery", severity := "warning",
              rule := "body_battery_low",
              message := s!"Body Battery has not recovered above 80 for {consec} consecutive days",
              data := [("consecutive_days", some (consec : ℚ)),
                       ("recent_high", some recent_high)] }]
    else some []

/-- Stress block: `stress_high` and `stress_trending_up` (lines 219-239). -/
def stressBlock (stress_data : List MetricPoint) : Option (List Finding) :=
  if stress_data = [] then some []
  else do
    let f1 ←
      (let consec := consecutive_above stress_data 50 7
       if 3 ≤ consec then do
         let a ← avg (recent_values stress_data 7)
         let ra := pyRound a
         some [{ category := "stress", severity := "warning", rule := "stress_high",
                 message := s!"Average daily stress above 50 for {consec} consecutive days",
                 data := [("consecutive_days", some (consec : ℚ)),
                          ("recent_avg", some ((ra : ℤ) : ℚ))] }]
       else some [])
    let f2 :=
      match trend_slope stress_data 14 with
      | some slope =>
        if (1/2 : ℚ) < slope then
          [{ category := "stress", severity := "warning",
             rule := "stress_trending_up",
             message := "Stress levels trending upward over the past 2 weeks",
             data := [("trend_per_day", some (pyRoundTo slope 2))] }]
        else []
      | none => []
    some (f1 ++ f2)

/-- Body-composition block: `weight_no_data`, `weight_rapid_gain` and
`weight_plateau` (lines 242-286).  `weight_data[-1]` is modelled with
`getLast?`; `today` stands for `datetime.now().date()` and dates are day
ordinals, so `days_since` is an exact difference. -/
def weightBlock (today : ℤ) (weight_data tl : List MetricPoint) :
    Option (List Finding) :=
  if weight_data = [] then some []
  else do
    let lastP ← weight_data.getLast?
    let days_since := today - lastP.date
    let f1 :=
      if 7 ≤ days_since then
        [{ category := "body_composition", severity := "info",
           rule := "weight_no_data",
           message := s!"No weight data logged in {days_since} days",
           data := [("days_since", some (days_since : ℚ))] }]
      else []
    let f2 :=
      if 14 ≤ weight_data.length then
        let recent_avg := avg (recent_values weight_data 7)
        let prev_avg := avg (seriesValues (midSlice weight_data 14 7))
        let g1 :=
          match recent_avg, prev_avg with
          | some ra, some pa =>
            if ra ≠ 0 ∧ pa ≠ 0 then
              let weekly_change := ra - pa
              if 907 < weekly_change then
                let lbs := pyRoundTo (weekly_change / (4536/10)) 1
                [{ category := "body_composition", severity := "warning",
                   rule := "weight_rapid_gain",
                   message := s!"Weight increasing at {lbs} lbs/week",
                   data := [("weekly_change_g", some ((pyRound weekly_change : ℤ) : ℚ)),
                            ("weekly_change_lbs", some lbs)] }]
              else []
            else []
          | _, _ => []
        let g2 :=
          if 21 ≤ weight_data.length then
            let avg_3wk := avg (seriesValues (midSlice weight_data 21 14))
            match recent_avg, avg_3wk with
            | some ra, some a3 =>
              if ra ≠ 0 ∧ a3 ≠ 0 then
                let change_3wk := |ra - a3|
                let has_training :=
                  decide (7 ≤ tl.length) && truthyQ (avg (recent_values tl 7)) &&
                    decide (0 < (avg (recent_values tl 7)).getD 0)
                if change_3wk < 227 ∧ has_training = true then
                  [{ category := "body_composition", severity := "info",
                     rule := "weight_plateau",
                     message := "Weight has plateaued over the past 3 weeks despite active training",
                     data := [("change_g", some ((pyRound change_3wk : ℤ) : ℚ))] }]
                else []
              else []
            | _, _ => []
          else []
        g1 ++ g2
      else []
    some (f1 ++ f2)

/-- Activity block: `steps_low` (lines 289-299).  The guard
`if avg_steps and avg_steps < 7000` makes a zero average falsy. -/
def stepsBlock (steps_data : List MetricPoint) : List Finding :=
  if steps_data = [] ∨ steps_data.length < 7 then []
  else
    match avg (recent_values steps_data 7) with
    | some avg_steps =>
      if avg_steps ≠ 0 ∧ avg_steps < 7000 then
        let wa := pyRound avg_steps
        [{ category := "activity", severity := "info", rule := "steps_low",
           message := s!"Daily step average this week is {wa}, below 7,000 target",
           data := [("weekly_avg", some ((wa : ℤ) : ℚ))] }]
      else []
    | none => []

/-- Activity block: `training_load_spike` (lines 301-314). -/
def tlBlock (tl_data : List MetricPoint) : List Finding :=
  if tl_data = [] ∨ tl_data.length < 14 then []
  else
    match avg (recent_values tl_data 7),
          avg (seriesValues (midSlice tl_data 14 7)) with
    | some ar, some ap =>
      if ar ≠ 0 ∧ ap ≠ 0 ∧ 0 < ap then
        let ratio := ar / ap
        if (13/10 : ℚ) < ratio then
          let pct := pyRound ((ratio - 1) * 100)
          [{ category := "activity", severity := "warning",
             rule := "training_load_spike",
             message := s!"Training load {pct}% above last week, overtraining risk",
             data := [("this_week", some ((pyRound ar : ℤ) : ℚ)),
                      ("last_week", some ((pyRound ap : ℤ) : ℚ)),
                      ("ratio", some (pyRoundTo ratio 2))] }]
        else []
      else []
    | _, _ => []

/-- Activity block: `vo2max_declining` (lines 316-326). -/
def vo2Block (vo2_data : List MetricPoint) : List Finding :=
  if vo2_data = [] ∨ vo2_data.length < 14 then []
  else
    match trend_slope vo2_data 14 with
    | some slope =>
      if slope < -(3/100) then
        [{ category := "activity", severity := "warning",
           rule := "vo2max_declining",
           message := "VO2 Max is declining",
           data := [("trend_per_day", some (pyRoundTo slope 3))] }]
      else []
    | none => []

/-- Correlation block: `recovery_deficit` and `overtraining_risk`
(lines 329-353).  The truthiness chains short-circuit exactly as the source
does; the `.getD 0` reads are only reached when the preceding guard has
established `some`, matching the guarded `[-1]` indexings. -/
def corrBlock (sleep_dur rhr_data hrv_data tl_data : List MetricPoint) :
    List Finding :=
  let f1 :=
    if sleep_dur ≠ [] ∧ rhr_data ≠ [] ∧ hrv_data ≠ [] then
      let s3 := avg (recent_values sleep_dur 3)
      let poor_sleep :=
        decide (3 ≤ sleep_dur.length) && truthyQ s3 &&
          decide (s3.getD 0 < 6 * 3600)
      let rAll := avg (seriesValues rhr_data)
      let elevated_rhr :=
        decide (rhr_data ≠ []) && truthyQ rAll &&
          decide (rAll.getD 0 * (21/20) < (lastVal rhr_data).getD 0)
      let hAll := avg (seriesValues hrv_data)
      let h3 := avg (recent_values hrv_data 3)
      let low_hrv :=
        decide (hrv_data ≠ []) && truthyQ hAll && truthyQ h3 &&
          decide (h3.getD 0 < hAll.getD 0 * (17/20))
      if poor_sleep && elevated_rhr && low_hrv then
        [{ category := "correlation", severity := "alert",
           rule := "recovery_deficit",
           message := "Multiple recovery markers indicate a recovery deficit: poor sleep, elevated resting HR, and low HRV",
           data := [] }]
      else []
    else []
  let f2 :=
    if tl_data ≠ [] ∧ hrv_data ≠ [] ∧ rhr_data ≠ [] then
      let tAll := avg (seriesValues tl_data)
      let t7 := avg (recent_values tl_data 7)
      let high_load :=
        decide (tl_data ≠ []) && decide (7 ≤ tl_data.length) && truthyQ t7 &&
          truthyQ tAll && decide (tAll.getD 0 * (6/5) < t7.getD 0)
      let declining_hrv :=
        decide (hrv_data ≠ []) && (trend_slope hrv_data 7).isSome &&
          decide ((trend_slope hrv_data 7).getD 0 < -(1/2))
      let rAll2 := avg (seriesValues rhr_data)
      let elevated_rhr2 :=
        decide (rhr_data ≠ []) && truthyQ rAll2 &&
          decide (rAll2.getD 0 * (21/20) < (lastVal rhr_data).getD 0)
      if high_load && declining_hrv && elevated_rhr2 then
        [{ category := "correlation", severity := "alert",
           rule := "overtraining_risk",
           message := "High training load combined with declining HRV and elevated resting HR suggests overtraining risk",
           data := [] }]
      else []
    else []
  f1 ++ f2

/-- `run_rules`: the full detector catalog in the source's append order.
`today` stands for `datetime.now().date()`.  A `none` result would mean some
guarded partial operation was reached unguarded; totality is proved below. -/
def run_rules (today : ℤ) (data : MetricSet) : Option (List Finding) := do
  let s1 ← sleepDurBlock data.sleep_duration
  let s2 ← sleepScoreBlock data.sleep_score
  let r1 := hrvBlock data.hrv
  let r2 ← rhrBlock data.resting_hr
  let r3 ← bbBlock data.body_battery
  let sx ← stressBlock data.stress
  let bc ← weightBlock today data.weight data.training_load
  let a1 := stepsBlock data.steps
  let a2 := tlBlock data.training_load
  let a3 := vo2Block data.vo2max
  let co := corrBlock data.sleep_duration data.resting_hr data.hrv
              data.training_load
  some (s1 ++ s2 ++ r1 ++ r2 ++ r3 ++ sx ++ bc ++ a1 ++ a2 ++ a3 ++ co)

/-! ## Narrative generator (LLM layer) and its deterministic fallback -/

/-- Python `str.title()`: an alphabetic character is uppercased when the
previous character was not alphabetic and lowercased otherwise; other
characters (digits, spaces) pass through and reset the word boundary. -/
def titleMap : Bool → List Char → List Char
  | _, [] => []
  | prevCased, c :: cs =>
    (if c.isAlpha then (if prevCased then c.toLower else c.toUpper) else c) ::
      titleMap c.isAlpha cs

/-- Python `s.title()`. -/
def pyTitle (s : String) : String := String.mk (titleMap false s.data)

/-- Python `s.replace("_", " ")` (single-character replacement). -/
def underscoresToSpaces (s : String) : String :=
  String.mk (s.data.map fun c => if c = '_' then ' ' else c)

/-- `_findings_to_recommendations`: render each of the first five findings as
a recommendation (`recommendations.py` lines 473-483). -/
def findings_to_recommendations (findings : List Finding) : List Recommendation :=
  (findings.take 5).map fun f =>
    { title := pyTitle (underscoresToSpaces f.rule)
      text := f.message
      severity := f.severity
      metrics := [f.category] }

/-- The observable outcome of one narrative-generation attempt.  Exactly one
constructor per exit path of `get_llm_recommendations`: missing
configuration (`ANTHROPIC_API_KEY`/`ANTHROPIC_BASE_URL` both unset), the
`anthropic` import failing, the client call raising, `json.loads` raising,
the parsed JSON not being a list, or a parsed list of items. -/
inductive LLMEnv where
  | unconfigured
  | libraryMissing
  | callFailed
  | notJson
  | notAList
  | ok (recs : List Recommendation)
deriving DecidableEq

/-- `get_llm_recommendations` (lines 405-470).  The prompt built from the
findings and the metric summary only shapes the request; the response is
captured by `llm`.  `data` is therefore unused here, as in every failure
path of the source.  On a parsed list the result is `recs[:5]`; every other
path falls back to the rules-derived rendering and nothing propagates. -/
def get_llm_recommendations (llm : LLMEnv) (findings : List Finding)
    (_data : MetricSet) : List Recommendation :=
  match llm with
  | .ok recs => recs.take 5
  | _ => findings_to_recommendations findings

/-! ## Recommendation cache and public API -/

/-- `CACHE_TTL = 6 * 3600` seconds. -/
def CACHE_TTL : ℚ := 6 * 3600

/-- The module-level `_cache` slot: `{"hash": None, "timestamp": 0,
"recommendations": None}` initially. -/
structure CacheState where
  hash : Option String
  timestamp : ℚ
  recommendations : Option (List Recommendation)
deriving DecidableEq

/-- Python truthiness of `_cache["recommendations"]`: `None` and the empty
list are falsy. -/
def truthyRecs : Option (List Recommendation) → Bool
  | some (_ :: _) => true
  | _ => false

/-- The value returned by `get_recommendations`. -/
structure RecoResult where
  recommendations : List Recommendation
  cached : Bool
  generated_at : ℚ
deriving DecidableEq

/-- Observable module state threaded through the public API: the cache slot
plus a count of narrative-generator invocations (the call-count the spec
asks to assert on). -/
structure PipelineState where
  cache : CacheState
  llmCalls : ℕ
deriving DecidableEq

/-- The ambient effects of one analysis pass: the content hash of the
serialized `MetricSet` (`md5(json.dumps(data, default=str))`, abstracted to
an arbitrary string-valued function), the narrative-generator outcome, and
the two clocks `time.time()` and `datetime.now().date()`. -/
structure RecoEnv where
  dataHash : MetricSet → String
  llm : LLMEnv
  now : ℚ
  today : ℤ

/-- `get_recommendations(force)` (lines 490-520): serve the cache slot when
`force` is falsy, the stored hash equals the current data hash, the entry is
younger than `CACHE_TTL`, and the stored recommendations are truthy;
otherwise recompute, overwrite the slot, and return fresh. -/
def get_recommendations (env : RecoEnv) (data : MetricSet) (force : Bool)
    (st : PipelineState) : Option (RecoResult × PipelineState) :=
  let data_hash := env.dataHash data
  let now := env.now
  if force = false ∧ st.cache.hash = some data_hash ∧
      now - st.cache.timestamp < CACHE_TTL ∧
      truthyRecs st.cache.recommendations = true then
    -- cache hit: the slot is returned verbatim and left untouched
    some ({ recommendations := st.cache.recommendations.getD [],
            cached := true,
            generated_at := st.cache.timestamp }, st)
  else do
    let findings ← run_rules env.today data
    let recommendations := get_llm_recommendations env.llm findings data
    some ({ recommendations := recommendations, cached := false,
            generated_at := now },
          { cache := { hash := some data_hash, timestamp := now,
                       recommendations := some recommendations },
            llmCalls := st.llmCalls + 1 })

/-- `get_rules_only()` (lines 523-530): recompute the findings only.  The
source body never mentions `_cache` and never calls the narrative generator,
so the state passes through unchanged. -/
def get_rules_only (env : RecoEnv) (data : MetricSet) (st : PipelineState) :
    Option ((List Finding × ℕ) × PipelineState) := do
  let findings ← run_rules env.today data
  some ((findings, findings.length), st)

/-! ## Concrete data used by witnesses and counterexamples -/

/-- Category evaluation order of the rules engine. -/
def catIdx : String → ℕ
  | "sleep" => 0
  | "recovery" => 1
  | "stress" => 2
  | "body_composition" => 3
  | "activity" => 4
  | "correlation" => 5
  | _ => 6

/-- The full detector catalog's rule identifiers, in emission order. -/
def allRuleNames : List String :=
  ["sleep_low_duration", "sleep_declining", "sleep_low_score",
   "hrv_below_baseline", "hrv_weekly_drop", "rhr_elevated", "rhr_trending_up",
   "body_battery_low", "stress_high", "stress_trending_up",
   "weight_no_data", "weight_rapid_gain", "weight_plateau",
   "steps_low", "training_load_spike", "vo2max_declining",
   "recovery_deficit", "overtraining_risk"]

/-- An HRV series of 20 days at 50 followed by 7 days at 30 (the spec's
`hrv_below_baseline` example), dated consecutively. -/
def hrvExampleSeries : List MetricPoint :=
  (List.range 20).map (fun i => { date := (i : ℤ), value := 50 }) ++
    (List.range 7).map (fun i => { date := (20 + i : ℤ), value := 30 })

/-- A metric set carrying only the HRV example series. -/
def hrvExampleSet : MetricSet := { hrv := hrvExampleSeries }

/-- Seven HRV points whose first three are far below the 30-day average while
the latest four are above it: at least 3 of the last 10 days are below the
average, but the trailing run below it is empty. -/
def hrvScatteredSeries : List MetricPoint :=
  [{ date := 0, value := 10 }, { date := 1, value := 10 },
   { date := 2, value := 10 }, { date := 3, value := 100 },
   { date := 4, value := 100 }, { date := 5, value := 100 },
   { date := 6, value := 100 }]

/-- A metric set carrying only the scattered HRV series. -/
def hrvScatteredSet : MetricSet := { hrv := hrvScatteredSeries }

/-- Seven days of zero steps: the 7-day average is 0, which is below 7000 but
falsy in Python. -/
def zeroStepsSet : MetricSet :=
  { steps := (List.range 7).map (fun i => { date := (i : ℤ), value := 0 }) }

/-- A set firing one sleep finding and one activity finding, for the ordering
witness: sleep scores of 50 and a low step count over seven days. -/
def orderWitnessSet : MetricSet :=
  { sleep_score := (List.range 7).map (fun i => { date := (i : ℤ), value := 50 })
    steps := (List.range 7).map (fun i => { date := (i : ℤ), value := 1000 }) }

/-- A steps series averaging 50 over its last seven days. -/
def lowStepsSet : MetricSet :=
  { steps := (List.range 7).map (fun i => { date := (i : ℤ), value := 50 }) }

/-- A three-point series with a calendar gap (dates 0, 5, 6) whose values are
all below 10. -/
def gapSeries : List MetricPoint :=
  [{ date := 0, value := 1 }, { date := 5, value := 1 }, { date := 6, value := 1 }]

/-- A perfectly linear three-point series with intercept 1 and slope 2. -/
def linData : List MetricPoint :=
  [{ date := 0, value := 1 }, { date := 1, value := 3 }, { date := 2, value := 5 }]

/-- A two-point series, below the three-point minimum of `trend_slope`. -/
def twoPoints : List MetricPoint :=
  [{ date := 0, value := 1 }, { date := 1, value := 2 }]

/-- Trailing run for the `consecutive_below` witness: the last two values are
below 5 and the one before them is not. -/
def witBelowSeries : List MetricPoint :=
  [{ date := 0, value := 9 }, { date := 1, value := 3 }, { date := 2, value := 4 }]

/-- Trailing run for the `consecutive_above` witness: the last value is above
5 and the one before it is not. -/
def witAboveSeries : List MetricPoint :=
  [{ date := 0, value := 1 }, { date := 1, value := 8 }]

/-- The empty metric set: every series empty. -/
def emptyMetricSet : MetricSet := {}

/-- A sample finding, as the steps detector would emit it. -/
def exampleFinding : Finding :=
  { category := "activity", severity := "info", rule := "steps_low",
    message := "Daily step average this week is 50, below 7,000 target",
    data := [("weekly_avg", some 50)] }

/-- A sample recommendation for the cache witness. -/
def witRec : Recommendation :=
  { title := "t", text := "x", severity := "info", metrics := [] }

/-- A pipeline state holding a fresh, matching cache entry. -/
def witCacheState : PipelineState :=
  { cache := { hash := some "h", timestamp := 0,
               recommendations := some [witRec] },
    llmCalls := 0 }

/-- An environment whose hash of any metric set is `"h"`, observed at time
100 with the narrative generator unconfigured. -/
def witEnv : RecoEnv :=
  { dataHash := fun _ => "h", llm := LLMEnv.unconfigured, now := 100,
    today := 0 }

/-! ## Helper lemmas -/

/-- The mean of a nonempty list is defined. -/
theorem avg_isSome {l : List ℚ} (h : l ≠ []) : (avg l).isSome := by
  simp [avg, h]

/-- Characterization of `takeWhile` length: if the first `k` elements satisfy
`p` and the element at position `k` (when it exists) does not, the prefix has
length exactly `k`. -/
theorem length_takeWhile_of {α : Type} (p : α → Bool) (l : List α) (k : ℕ)
    (hk : k ≤ l.length)
    (h1 : ∀ i : Fin l.length, (i : ℕ) < k → p (l.get i) = true)
    (h2 : ∀ i : Fin l.length, (i : ℕ) = k → p (l.get i) = false) :
    (l.takeWhile p).length = k := by
  induction l generalizing k with
  | nil =>
    simp only [List.length_nil, Nat.le_zero] at hk
    simp [hk]
  | cons a t ih =>
    cases k with
    | zero =>
      have hpa := h2 ⟨0, by simp⟩ rfl
      simp only [List.get] at hpa
      simp [List.takeWhile_cons, hpa]
    | succ k =>
      have hpa := h1 ⟨0, by simp⟩ (Nat.succ_pos k)
      simp only [List.get] at hpa
      have ht : (t.takeWhile p).length = k := by
        apply ih
        · simpa using hk
        · intro i hi
          have := h1 ⟨i + 1, by simpa using Nat.succ_lt_succ i.isLt⟩
            (Nat.succ_lt_succ hi)
          simpa using this
        · intro i hi
          have := h2 ⟨i + 1, by simpa using Nat.succ_lt_succ i.isLt⟩
            (by simpa using congrArg Nat.succ hi)
          simpa using this
      simp [List.takeWhile_cons, hpa, ht]

/-- Gauss sum over `ℚ`. -/
theorem sum_range_rat (n : ℕ) :
    ∑ i in Finset.range n, (i : ℚ) = (n : ℚ) * ((n : ℚ) - 1) / 2 := by
  induction n with
  | zero => simp
  | succ m ih =>
    rw [Finset.sum_range_succ, ih]
    push_cast
    ring

/-- A list sum as a sum over positions. -/
theorem list_sum_getD (l : List ℚ) :
    l.sum = ∑ i in Finset.range l.length, l.getD i 0 := by
  induction l with
  | nil => simp
  | cons a t ih =>
    rw [List.sum_cons, ih, List.length_cons, Finset.sum_range_succ']
    simp [List.getD]
    ring

/-- The slope denominator is positive from two points on. -/
theorem slope_den_pos (n : ℕ) (h : 2 ≤ n) : 0 < slope_den n := by
  unfold slope_den
  apply Finset.sum_pos'
  · intro i _
    positivity
  · refine ⟨0, Finset.mem_range.mpr (by omega), ?_⟩
    have h2 : (2 : ℚ) ≤ (n : ℚ) := by exact_mod_cast h
    have hc : (0 : ℚ) < ((n : ℚ) - 1) / 2 := by linarith
    have he : (((0 : ℕ) : ℚ) - ((n : ℚ) - 1) / 2) ^ 2 =
        (((n : ℚ) - 1) / 2) ^ 2 := by
      push_cast
      ring
    rw [he]
    positivity

/-! ## Claims C3, C4, C5: statistical primitives -/

/-- C3 (amended): `consecutive_below` counts, within the last `w` points and
scanning backward from the most recent, the trailing points with value
strictly below the threshold, stopping at the first that is not; when the
last `k` points are below and the point at backward position `k` (if any) is
not, the result is exactly `k`.  `consecutive_above` is the mirror with
strictly-above.  Calendar dates play no role (see
`consecutive_below_ignores_gaps`). -/
theorem consecutive_runs_exact :
    (∀ (data : List MetricPoint) (t : ℚ) (w k : ℕ),
      k ≤ ((lastSlice data w).reverse).length →
      (∀ i : Fin ((lastSlice data w).reverse).length,
        (i : ℕ) < k → (((lastSlice data w).reverse).get i).value < t) →
      (∀ i : Fin ((lastSlice data w).reverse).length,
        (i : ℕ) = k → ¬ (((lastSlice data w).reverse).get i).value < t) →
      consecutive_below data t w = k)
    ∧ (∀ (data : List MetricPoint) (t : ℚ) (w k : ℕ),
      k ≤ ((lastSlice data w).reverse).length →
      (∀ i : Fin ((lastSlice data w).reverse).length,
        (i : ℕ) < k → t < (((lastSlice data w).reverse).get i).value) →
      (∀ i : Fin ((lastSlice data w).reverse).length,
        (i : ℕ) = k → ¬ t < (((lastSlice data w).reverse).get i).value) →
      consecutive_above data t w = k) := by
  constructor
  · intro data t w k hk h1 h2
    unfold consecutive_below
    apply length_takeWhile_of _ _ _ hk
    · intro i hi
      simpa using h1 i hi
    · intro i hi
      simpa using h2 i hi
  · intro data t w k hk h1 h2
    unfold consecutive_above
    apply length_takeWhile_of _ _ _ hk
    · intro i hi
      simpa using h1 i hi
    · intro i hi
      simpa using h2 i hi

/-- Witness for C3: a run of two below with a blocker, and a run of one
above with a blocker, computed through the theorem. -/
theorem consecutive_runs_exact_witness :
    consecutive_below witBelowSeries 5 7 = 2 ∧
    consecutive_above witAboveSeries 5 3 = 1 :=
  ⟨consecutive_runs_exact.1 witBelowSeries 5 7 2 (by decide) (by decide)
      (by decide),
   consecutive_runs_exact.2 witAboveSeries 5 3 1 (by decide) (by decide)
      (by decide)⟩

/-- C3 (counterexample to the gap clause): a calendar gap inside the trailing
run does not break the streak.  `gapSeries` has dates 0, 5, 6 — a five-day
gap inside the run — yet all three points are counted, where the claim's gap
clause demands the count stop at the gap (at most 2). -/
theorem consecutive_below_ignores_gaps :
    gapSeries.map MetricPoint.date = [0, 5, 6] ∧
    (∀ p ∈ gapSeries, p.value < 10) ∧
    consecutive_below gapSeries 10 7 = 3 := by decide

/-- C4: on a series whose last-window values are perfectly linear in the
index, `v[i] = a + b·i`, `trend_slope` returns exactly `b`; the intercept `a`
is arbitrary, so the result is independent of it.  Over exact rationals the
equality is exact. -/
theorem trend_slope_linear (data : List MetricPoint) (a b : ℚ)
    (h3 : 3 ≤ (lastSlice data 14).length)
    (hlin : ∀ i : Fin (lastSlice data 14).length,
      ((lastSlice data 14).get i).value = a + b * ((i : ℕ) : ℚ)) :
    trend_slope data 14 = some b := by
  have hlt : ¬ (lastSlice data 14).length < 3 := by omega
  have hnQ : (((lastSlice data 14).length : ℚ)) ≠ 0 := by
    have h3Q : (3 : ℚ) ≤ ((lastSlice data 14).length : ℚ) := by exact_mod_cast h3
    linarith
  have hden : slope_den (lastSlice data 14).length ≠ 0 :=
    ne_of_gt (slope_den_pos _ (by omega))
  have hv : ∀ i ∈ Finset.range (lastSlice data 14).length,
      ((lastSlice data 14).map MetricPoint.value).getD i 0 = a + b * (i : ℚ) := by
    intro i hi
    rw [Finset.mem_range] at hi
    have hi' : i < ((lastSlice data 14).map MetricPoint.value).length := by
      simpa using hi
    rw [List.getD_eq_get _ _ hi', List.get_map]
    simpa using hlin ⟨i, hi⟩
  have hsum : ((lastSlice data 14).map MetricPoint.value).sum =
      ((lastSlice data 14).length : ℚ) * a +
        b * (((lastSlice data 14).length : ℚ) *
          (((lastSlice data 14).length : ℚ) - 1) / 2) := by
    rw [list_sum_getD, List.length_map, Finset.sum_congr rfl hv,
      Finset.sum_add_distrib, Finset.sum_const, Finset.card_range,
      ← Finset.mul_sum, sum_range_rat]
    simp only [nsmul_eq_mul]
  have hmean : ((lastSlice data 14).map MetricPoint.value).sum /
      ((lastSlice data 14).length : ℚ) =
      a + b * ((((lastSlice data 14).length : ℚ) - 1) / 2) := by
    rw [hsum]
    field_simp
    ring
  have hnum : (∑ i in Finset.range (lastSlice data 14).length,
      (((i : ℚ) - (((lastSlice data 14).length : ℚ) - 1) / 2) *
        (((lastSlice data 14).map MetricPoint.value).getD i 0 -
          ((lastSlice data 14).map MetricPoint.value).sum /
            ((lastSlice data 14).length : ℚ)))) =
      b * slope_den (lastSlice data 14).length := by
    rw [slope_den, Finset.mul_sum]
    apply Finset.sum_congr rfl
    intro i hi
    rw [hv i hi, hmean]
    ring
  simp only [trend_slope, List.length_map]
  rw [if_neg hlt, if_neg hden, hnum, mul_div_assoc, div_self hden, mul_one]

/-- Witness for C4: the linear series with intercept 1 and slope 2 yields
slope exactly 2. -/
theorem trend_slope_linear_witness : trend_slope linData 14 = some 2 :=
  trend_slope_linear linData 1 2 (by decide) (by with_unfolding_all decide)

/-- C5: `avg` of the empty list is `None` (no division by zero);
`trend_slope` below three points is `None` (never raises); for any window
holding at least three points the slope denominator is non-zero, so the
division is safe and the zero-denominator guard is unreachable — the result
is always defined. -/
theorem undefined_guards :
    avg ([] : List ℚ) = none
    ∧ (∀ (data : List MetricPoint) (n : ℕ),
        (lastSlice data n).length < 3 → trend_slope data n = none)
    ∧ (∀ n : ℕ, 3 ≤ n → slope_den n ≠ 0)
    ∧ (∀ (data : List MetricPoint) (n : ℕ),
        3 ≤ (lastSlice data n).length → (trend_slope data n).isSome = true) := by
  refine ⟨by simp [avg], ?_, ?_, ?_⟩
  · intro data n h
    simp only [trend_slope]
    rw [if_pos h]
  · intro n h
    exact ne_of_gt (slope_den_pos n (by omega))
  · intro data n h
    have hlt : ¬ (lastSlice data n).length < 3 := by omega
    have hden : slope_den (lastSlice data n).length ≠ 0 :=
      ne_of_gt (slope_den_pos _ (by omega))
    simp only [trend_slope, List.length_map]
    rw [if_neg hlt, if_neg hden]
    rfl

/-- Witness for C5: each guard evaluated at a concrete input through the
theorem. -/
theorem undefined_guards_witness :
    avg ([] : List ℚ) = none ∧ trend_slope twoPoints 14 = none ∧
    slope_den 3 ≠ 0 ∧ (trend_slope linData 14).isSome = true :=
  ⟨undefined_guards.1, undefined_guards.2.1 twoPoints 14 (by decide),
   undefined_guards.2.2.1 3 (by decide),
   undefined_guards.2.2.2 linData 14 (by decide)⟩

/-! ## Per-block lemmas for the rules engine -/

/-- A trailing slice of a nonempty list is nonempty. -/
theorem lastSlice_ne_nil {α : Type} (l : List α) (n : ℕ) (hl : l ≠ []) :
    lastSlice l n ≠ [] := by
  unfold lastSlice
  split
  · exact hl
  · intro h
    rw [List.drop_eq_nil_iff] at h
    have : 0 < l.length := List.length_pos.mpr hl
    omega

/-- The recent values of a nonempty series form a nonempty list. -/
theorem recent_values_ne_nil {data : List MetricPoint} {n : ℕ}
    (h : data ≠ []) (_hn : n ≠ 0) : recent_values data n ≠ [] := by
  unfold recent_values
  simp only [ne_eq, List.map_eq_nil_iff]
  exact lastSlice_ne_nil data n h

/-- `max?` of a nonempty list is defined. -/
theorem max?_isSome {l : List ℚ} (h : l ≠ []) : (l.max?).isSome := by
  cases l with
  | nil => exact absurd rfl h
  | cons a t => rfl

/-- A guarded singleton finding keeps its rule inside the singleton list. -/
theorem map_rule_ite_sublist {c : Prop} [Decidable c] (f : Finding) (r : String)
    (hr : f.rule = r) :
    List.Sublist ((if c then [f] else []).map Finding.rule) [r] := by
  split <;> simp [hr]

/-- Appending two sub-singleton rule lists stays inside the two-name list. -/
theorem sublist_append_two {l1 l2 : List Finding} {r1 r2 : String}
    (h1 : List.Sublist (l1.map Finding.rule) [r1])
    (h2 : List.Sublist (l2.map Finding.rule) [r2]) :
    List.Sublist ((l1 ++ l2).map Finding.rule) [r1, r2] := by
  rw [List.map_append]
  exact List.Sublist.append h1 h2

/-- The sleep-duration block always succeeds. -/
theorem sleepDurBlock_isSome (sd : List MetricPoint) :
    (sleepDurBlock sd).isSome := by
  unfold sleepDurBlock
  split
  · rfl
  · rename_i hsd
    have hrv : recent_values sd 7 ≠ [] := recent_values_ne_nil hsd (by omega)
    obtain ⟨av, hav⟩ := Option.isSome_iff_exists.mp (avg_isSome hrv)
    simp only [bind, Option.bind]
    split
    · rename_i heq
      split at heq
      · simp_all [Option.bind]
      · simp_all
    · rfl

/-- Rules and category emitted by the sleep-duration block. -/
theorem sleepDurBlock_shape (sd : List MetricPoint) (fs : List Finding)
    (h : sleepDurBlock sd = some fs) :
    List.Sublist (fs.map Finding.rule) ["sleep_low_duration", "sleep_declining"] ∧
    ∀ f ∈ fs, f.category = "sleep" := by
  unfold sleepDurBlock at h
  split at h
  · simp only [Option.some.injEq] at h
    subst h
    simp
  · simp only [bind, Option.bind_eq_some, Option.some.injEq] at h
    obtain ⟨f1, h1, h2⟩ := h
    subst h2
    have hf1 : List.Sublist (f1.map Finding.rule) ["sleep_low_duration"] ∧
        ∀ f ∈ f1, f.category = "sleep" := by
      split at h1
      · split at h1
        · simp only [Option.some_bind, Option.some.injEq] at h1
          subst h1
          simp
        · rcases havg : avg (recent_values sd 7) with _ | av
          · rw [havg] at h1
            simp at h1
          · rw [havg] at h1
            simp only [Option.some_bind, Option.some.injEq] at h1
            subst h1
            simp
      · simp only [Option.some.injEq] at h1
        subst h1
        simp
    constructor
    · rw [List.map_append]
      apply List.Sublist.append hf1.1
      split <;> (try split) <;> simp
    · intro f hf
      rw [List.mem_append] at hf
      rcases hf with hf | hf
      · exact hf1.2 f hf
      · revert hf
        split <;> (try split) <;> intro hf2 <;> simp at hf2 <;> subst hf2 <;> rfl

/-- The sleep-score block always succeeds. -/
theorem sleepScoreBlock_isSome (ss : List MetricPoint) :
    (sleepScoreBlock ss).isSome := by
  simp only [sleepScoreBlock]
  split
  · rfl
  · rename_i hss
    have hrv : recent_values ss 7 ≠ [] := recent_values_ne_nil hss (by omega)
    obtain ⟨av, hav⟩ := Option.isSome_iff_exists.mp (avg_isSome hrv)
    split
    · rw [hav]
      rfl
    · rfl

/-- Rules and category emitted by the sleep-score block. -/
theorem sleepScoreBlock_shape (ss : List MetricPoint) (fs : List Finding)
    (h : sleepScoreBlock ss = some fs) :
    List.Sublist (fs.map Finding.rule) ["sleep_low_score"] ∧
    ∀ f ∈ fs, f.category = "sleep" := by
  simp only [sleepScoreBlock] at h
  split at h
  · simp only [Option.some.injEq] at h
    subst h
    simp
  · split at h
    · rcases havg : avg (recent_values ss 7) with _ | av
      · rw [havg] at h
        simp at h
      · rw [havg] at h
        simp only [bind, Option.some_bind, Option.some.injEq] at h
        subst h
        simp
    · simp only [Option.some.injEq] at h
      subst h
      simp

/-- Rules and category emitted by the HRV block. -/
theorem hrvBlock_shape (hd : List MetricPoint) :
    List.Sublist ((hrvBlock hd).map Finding.rule)
      ["hrv_below_baseline", "hrv_weekly_drop"] ∧
    ∀ f ∈ hrvBlock hd, f.category = "recovery" := by
  unfold hrvBlock
  split
  · simp
  · constructor
    · apply sublist_append_two
      · split <;> (try split) <;> (try split) <;>
          first
          | exact map_rule_ite_sublist _ _ rfl
          | simp
      · split <;> (try split) <;> (try split) <;>
          first
          | exact map_rule_ite_sublist _ _ rfl
          | simp
    · intro f hf
      rw [List.mem_append] at hf
      rcases hf with hf | hf <;> revert hf <;>
        split <;> (try split) <;> (try split) <;> (try split) <;>
        intro hf2 <;> simp at hf2 <;> simp_all

/-- The resting-heart-rate block always succeeds. -/
theorem rhrBlock_isSome (rd : List MetricPoint) :
    (rhrBlock rd).isSome := by
  unfold rhrBlock
  split
  · rfl
  · rename_i hcond
    have hne : rd ≠ [] := by
      intro hnil
      exact hcond (Or.inl hnil)
    obtain ⟨lp, hlp⟩ :=
      Option.isSome_iff_exists.mp (List.getLast?_isSome.mpr hne)
    simp only [bind, Option.bind]
    split
    · simp_all
    · rfl

/-- Rules and category emitted by the resting-heart-rate block. -/
theorem rhrBlock_shape (rd : List MetricPoint) (fs : List Finding)
    (h : rhrBlock rd = some fs) :
    List.Sublist (fs.map Finding.rule) ["rhr_elevated", "rhr_trending_up"] ∧
    ∀ f ∈ fs, f.category = "recovery" := by
  unfold rhrBlock at h
  split at h
  · simp only [Option.some.injEq] at h
    subst h
    simp
  · simp only [bind, Option.bind_eq_some, Option.some.injEq] at h
    obtain ⟨lp, _, h2⟩ := h
    subst h2
    constructor
    · apply sublist_append_two
      · split <;> (try split) <;> (try split) <;> simp
      · split <;> (try split) <;> (try split) <;> simp
    · intro f hf
      rw [List.mem_append] at hf
      rcases hf with hf | hf <;> revert hf <;>
        split <;> (try split) <;> (try split) <;>
        intro hf2 <;> simp at hf2 <;> simp_all

/-- The body-battery block always succeeds. -/
theorem bbBlock_isSome (bb : List MetricPoint) : (bbBlock bb).isSome := by
  simp only [bbBlock]
  split
  · rfl
  · rename_i hbb
    have hrv : recent_values bb 3 ≠ [] := recent_values_ne_nil hbb (by omega)
    obtain ⟨m, hm⟩ := Option.isSome_iff_exists.mp (max?_isSome hrv)
    split
    · rw [hm]
      rfl
    · rfl

/-- Rules and category emitted by the body-battery block. -/
theorem bbBlock_shape (bb : List MetricPoint) (fs : List Finding)
    (h : bbBlock bb = some fs) :
    List.Sublist (fs.map Finding.rule) ["body_battery_low"] ∧
    ∀ f ∈ fs, f.category = "recovery" := by
  simp only [bbBlock] at h
  split at h
  · simp only [Option.some.injEq] at h
    subst h
    simp
  · split at h
    · rcases hm : (recent_values bb 3).max? with _ | m
      · rw [hm] at h
        simp at h
      · rw [hm] at h
        simp only [bind, Option.some_bind, Option.some.injEq] at h
        subst h
        simp
    · simp only [Option.some.injEq] at h
      subst h
      simp

/-- The stress block always succeeds. -/
theorem stressBlock_isSome (sd : List MetricPoint) :
    (stressBlock sd).isSome := by
  unfold stressBlock
  split
  · rfl
  · rename_i hsd
    have hrv : recent_values sd 7 ≠ [] := recent_values_ne_nil hsd (by omega)
    obtain ⟨av, hav⟩ := Option.isSome_iff_exists.mp (avg_isSome hrv)
    simp only [bind, Option.bind]
    split
    · rename_i heq
      split at heq
      · simp_all
      · simp_all
    · rfl

/-- Rules and category emitted by the stress block. -/
theorem stressBlock_shape (sd : List MetricPoint) (fs : List Finding)
    (h : stressBlock sd = some fs) :
    List.Sublist (fs.map Finding.rule) ["stress_high", "stress_trending_up"] ∧
    ∀ f ∈ fs, f.category = "stress" := by
  unfold stressBlock at h
  split at h
  · simp only [Option.some.injEq] at h
    subst h
    simp
  · simp only [bind, Option.bind_eq_some, Option.some.injEq] at h
    obtain ⟨f1, h1, h2⟩ := h
    subst h2
    have hf1 : List.Sublist (f1.map Finding.rule) ["stress_high"] ∧
        ∀ f ∈ f1, f.category = "stress" := by
      split at h1
      · rcases havg : avg (recent_values sd 7) with _ | av
        · rw [havg] at h1
          simp at h1
        · rw [havg] at h1
          simp only [Option.some_bind, Option.some.injEq] at h1
          subst h1
          simp
      · simp only [Option.some.injEq] at h1
        subst h1
        simp
    constructor
    · apply sublist_append_two hf1.1
      split <;> (try split) <;>
        first
        | exact map_rule_ite_sublist _ _ rfl
        | simp
    · intro f hf
      rw [List.mem_append] at hf
      rcases hf with hf | hf
      · exact hf1.2 f hf
      · revert hf
        split <;> (try split) <;> intro hf2 <;> simp at hf2 <;> simp_all

/-- The weight block always succeeds. -/
theorem weightBlock_isSome (today : ℤ) (wd tl : List MetricPoint) :
    (weightBlock today wd tl).isSome := by
  unfold weightBlock
  split
  · rfl
  · rename_i hwd
    obtain ⟨lp, hlp⟩ :=
      Option.isSome_iff_exists.mp (List.getLast?_isSome.mpr hwd)
    simp only [bind, Option.bind]
    split
    · simp_all
    · rfl

/-- Rules and category emitted by the weight block. -/
theorem weightBlock_shape (today : ℤ) (wd tl : List MetricPoint)
    (fs : List Finding) (h : weightBlock today wd tl = some fs) :
    List.Sublist (fs.map Finding.rule)
      ["weight_no_data", "weight_rapid_gain", "weight_plateau"] ∧
    ∀ f ∈ fs, f.category = "body_composition" := by
  unfold weightBlock at h
  split at h
  · simp only [Option.some.injEq] at h
    subst h
    simp
  · simp only [bind, Option.bind_eq_some, Option.some.injEq] at h
    obtain ⟨lp, _, h2⟩ := h
    subst h2
    constructor
    · rw [List.map_append]
      have e : (["weight_no_data", "weight_rapid_gain", "weight_plateau"] :
          List String) = ["weight_no_data"] ++ ["weight_rapid_gain", "weight_plateau"] := rfl
      rw [e]
      apply List.Sublist.append
      · split <;> simp
      · split
        · apply sublist_append_two
          · split <;> (try split) <;> (try split) <;>
              first
              | exact map_rule_ite_sublist _ _ rfl
              | simp
          · split
            · split <;> (try split) <;> (try split) <;>
                first
                | exact map_rule_ite_sublist _ _ rfl
                | simp
            · simp
        · simp
    · intro f hf
      rw [List.mem_append] at hf
      rcases hf with hf | hf
      · revert hf
        split <;> intro hf2 <;> simp at hf2 <;> simp_all
      · revert hf
        split
        · intro hf2
          rw [List.mem_append] at hf2
          rcases hf2 with hf2 | hf2 <;> revert hf2 <;>
            split <;> (try split) <;> (try split) <;> (try split) <;>
            intro hf3 <;> simp at hf3 <;> simp_all
        · intro hf2
          simp at hf2

/-- Rules and category emitted by the steps block. -/
theorem stepsBlock_shape (sd : List MetricPoint) :
    List.Sublist ((stepsBlock sd).map Finding.rule) ["steps_low"] ∧
    ∀ f ∈ stepsBlock sd, f.category = "activity" := by
  unfold stepsBlock
  constructor
  · split <;> (try split) <;> (try split) <;>
      first
      | exact map_rule_ite_sublist _ _ rfl
      | simp
  · intro f hf
    revert hf
    split <;> (try split) <;> (try split) <;>
      intro hf2 <;> simp at hf2 <;> simp_all

/-- Rules and category emitted by the training-load block. -/
theorem tlBlock_shape (td : List MetricPoint) :
    List.Sublist ((tlBlock td).map Finding.rule) ["training_load_spike"] ∧
    ∀ f ∈ tlBlock td, f.category = "activity" := by
  unfold tlBlock
  constructor
  · split <;> (try split) <;> (try split) <;>
      first
      | exact map_rule_ite_sublist _ _ rfl
      | simp
  · intro f hf
    revert hf
    split <;> (try split) <;> (try split) <;>
      intro hf2 <;> simp at hf2 <;> simp_all

/-- Rules and category emitted by the VO2-max block. -/
theorem vo2Block_shape (vd : List MetricPoint) :
    List.Sublist ((vo2Block vd).map Finding.rule) ["vo2max_declining"] ∧
    ∀ f ∈ vo2Block vd, f.category = "activity" := by
  unfold vo2Block
  constructor
  · split <;> (try split) <;> (try split) <;>
      first
      | exact map_rule_ite_sublist _ _ rfl
      | simp
  · intro f hf
    revert hf
    split <;> (try split) <;> (try split) <;>
      intro hf2 <;> simp at hf2 <;> simp_all

/-- Rules and category emitted by the correlation block. -/
theorem corrBlock_shape (sd rd hd td : List MetricPoint) :
    List.Sublist ((corrBlock sd rd hd td).map Finding.rule)
      ["recovery_deficit", "overtraining_risk"] ∧
    ∀ f ∈ corrBlock sd rd hd td, f.category = "correlation" := by
  unfold corrBlock
  constructor
  · apply sublist_append_two
    · split <;> (try split) <;>
        first
        | exact map_rule_ite_sublist _ _ rfl
        | simp
    · split <;> (try split) <;>
        first
        | exact map_rule_ite_sublist _ _ rfl
        | simp
  · intro f hf
    rw [List.mem_append] at hf
    rcases hf with hf | hf <;> revert hf <;>
      split <;> (try split) <;> intro hf2 <;> simp at hf2 <;> simp_all

/-- Decomposition of `run_rules` into its category blocks, in the append
order of the source. -/
theorem run_rules_decomp (today : ℤ) (d : MetricSet) :
    ∃ s1 s2 r2 r3 sx bc,
      sleepDurBlock d.sleep_duration = some s1 ∧
      sleepScoreBlock d.sleep_score = some s2 ∧
      rhrBlock d.resting_hr = some r2 ∧
      bbBlock d.body_battery = some r3 ∧
      stressBlock d.stress = some sx ∧
      weightBlock today d.weight d.training_load = some bc ∧
      run_rules today d = some (s1 ++ s2 ++ hrvBlock d.hrv ++ r2 ++ r3 ++ sx ++
        bc ++ stepsBlock d.steps ++ tlBlock d.training_load ++
        vo2Block d.vo2max ++
        corrBlock d.sleep_duration d.resting_hr d.hrv d.training_load) := by
  obtain ⟨s1, h1⟩ :=
    Option.isSome_iff_exists.mp (sleepDurBlock_isSome d.sleep_duration)
  obtain ⟨s2, h2⟩ :=
    Option.isSome_iff_exists.mp (sleepScoreBlock_isSome d.sleep_score)
  obtain ⟨r2, h3⟩ :=
    Option.isSome_iff_exists.mp (rhrBlock_isSome d.resting_hr)
  obtain ⟨r3, h4⟩ :=
    Option.isSome_iff_exists.mp (bbBlock_isSome d.body_battery)
  obtain ⟨sx, h5⟩ :=
    Option.isSome_iff_exists.mp (stressBlock_isSome d.stress)
  obtain ⟨bc, h6⟩ :=
    Option.isSome_iff_exists.mp (weightBlock_isSome today d.weight d.training_load)
  refine ⟨s1, s2, r2, r3, sx, bc, h1, h2, h3, h4, h5, h6, ?_⟩
  simp [run_rules, h1, h2, h3, h4, h5, h6, bind]

/-- Lists all of whose findings share a category are internally ordered. -/
theorem pairwise_const_cat {l : List Finding} {c : String}
    (h : ∀ f ∈ l, f.category = c) :
    List.Pairwise (fun f g => catIdx f.category ≤ catIdx g.category) l := by
  induction l with
  | nil => exact List.Pairwise.nil
  | cons a t ih =>
    rw [List.forall_mem_cons] at h
    exact List.Pairwise.cons (fun g hg => by rw [h.1, h.2 g hg]) (ih h.2)

/-- Ordered append through a pivot category index. -/
theorem pairwise_cat_append {l1 l2 : List Finding} {m : ℕ}
    (p1 : List.Pairwise (fun f g => catIdx f.category ≤ catIdx g.category) l1)
    (p2 : List.Pairwise (fun f g => catIdx f.category ≤ catIdx g.category) l2)
    (hb1 : ∀ f ∈ l1, catIdx f.category ≤ m)
    (hb2 : ∀ g ∈ l2, m ≤ catIdx g.category) :
    List.Pairwise (fun f g => catIdx f.category ≤ catIdx g.category) (l1 ++ l2) :=
  List.pairwise_append.mpr
    ⟨p1, p2, fun f hf g hg => le_trans (hb1 f hf) (hb2 g hg)⟩

/-- Category bound across an append. -/
theorem bound_append {l1 l2 : List Finding} {m : ℕ}
    (h1 : ∀ f ∈ l1, catIdx f.category ≤ m)
    (h2 : ∀ f ∈ l2, catIdx f.category ≤ m) :
    ∀ f ∈ l1 ++ l2, catIdx f.category ≤ m := by
  intro f hf
  rcases List.mem_append.mp hf with h | h
  · exact h1 f h
  · exact h2 f h

/-- Category bound from a constant category. -/
theorem bound_of_const {l : List Finding} {c : String} {m : ℕ}
    (h : ∀ f ∈ l, f.category = c) (hm : catIdx c ≤ m) :
    ∀ f ∈ l, catIdx f.category ≤ m := by
  intro f hf
  rw [h f hf]
  exact hm

/-- Category lower bound from a constant category. -/
theorem lower_of_const {l : List Finding} {c : String} {m : ℕ}
    (h : ∀ f ∈ l, f.category = c) (hm : m ≤ catIdx c) :
    ∀ f ∈ l, m ≤ catIdx f.category := by
  intro f hf
  rw [h f hf]
  exact hm

/-- Weakening of a category bound. -/
theorem bound_mono {l : List Finding} {m m2 : ℕ}
    (h : ∀ f ∈ l, catIdx f.category ≤ m) (hm : m ≤ m2) :
    ∀ f ∈ l, catIdx f.category ≤ m2 :=
  fun f hf => le_trans (h f hf) hm

/-- C10: `run_rules` is total — every guarded partial operation (last-element
indexing, `max` over recent values, rounding of averages) succeeds behind its
preceding emptiness and length checks — and each rule identifier appears at
most once in the returned findings list. -/
theorem run_rules_total_and_unique (today : ℤ) (d : MetricSet) :
    ∃ fs, run_rules today d = some fs ∧ (fs.map Finding.rule).Nodup := by
  obtain ⟨s1, s2, r2, r3, sx, bc, h1, h2, h3, h4, h5, h6, hrun⟩ :=
    run_rules_decomp today d
  refine ⟨_, hrun, ?_⟩
  have hsub : List.Sublist ((s1 ++ s2 ++ hrvBlock d.hrv ++ r2 ++ r3 ++ sx ++
      bc ++ stepsBlock d.steps ++ tlBlock d.training_load ++
      vo2Block d.vo2max ++
      corrBlock d.sleep_duration d.resting_hr d.hrv
        d.training_load).map Finding.rule) allRuleNames := by
    have e : allRuleNames = ["sleep_low_duration", "sleep_declining"] ++
        ["sleep_low_score"] ++ ["hrv_below_baseline", "hrv_weekly_drop"] ++
        ["rhr_elevated", "rhr_trending_up"] ++ ["body_battery_low"] ++
        ["stress_high", "stress_trending_up"] ++
        ["weight_no_data", "weight_rapid_gain", "weight_plateau"] ++
        ["steps_low"] ++ ["training_load_spike"] ++ ["vo2max_declining"] ++
        ["recovery_deficit", "overtraining_risk"] := rfl
    rw [e]
    simp only [List.map_append]
    exact ((((((((((sleepDurBlock_shape _ _ h1).1.append
      (sleepScoreBlock_shape _ _ h2).1).append
      (hrvBlock_shape _).1).append
      (rhrBlock_shape _ _ h3).1).append
      (bbBlock_shape _ _ h4).1).append
      (stressBlock_shape _ _ h5).1).append
      (weightBlock_shape _ _ _ _ h6).1).append
      (stepsBlock_shape _).1).append
      (tlBlock_shape _).1).append
      (vo2Block_shape _).1).append
      (corrBlock_shape _ _ _ _).1
  exact List.Nodup.sublist hsub (by decide)

/-- C8: the findings list of `run_rules` carries only the six fixed
categories and is ordered by the fixed category evaluation order — sleep,
recovery, stress, body composition, activity, correlation — with insertion
order preserved within the concatenation; it is never sorted by severity. -/
theorem run_rules_category_order (today : ℤ) (d : MetricSet) (fs : List Finding)
    (h : run_rules today d = some fs) :
    (∀ f ∈ fs, f.category ∈ ["sleep", "recovery", "stress", "body_composition",
      "activity", "correlation"]) ∧
    List.Pairwise (fun f g => catIdx f.category ≤ catIdx g.category) fs := by
  obtain ⟨s1, s2, r2, r3, sx, bc, h1, h2, h3, h4, h5, h6, hrun⟩ :=
    run_rules_decomp today d
  rw [hrun] at h
  injection h with h
  subst h
  have c1 := (sleepDurBlock_shape _ _ h1).2
  have c2 := (sleepScoreBlock_shape _ _ h2).2
  have c3 := (hrvBlock_shape d.hrv).2
  have c4 := (rhrBlock_shape _ _ h3).2
  have c5 := (bbBlock_shape _ _ h4).2
  have c6 := (stressBlock_shape _ _ h5).2
  have c7 := (weightBlock_shape _ _ _ _ h6).2
  have c8 := (stepsBlock_shape d.steps).2
  have c9 := (tlBlock_shape d.training_load).2
  have c10 := (vo2Block_shape d.vo2max).2
  have c11 := (corrBlock_shape d.sleep_duration d.resting_hr d.hrv
    d.training_load).2
  constructor
  · intro f hf
    simp only [List.append_assoc, List.mem_append] at hf
    rcases hf with hf|hf|hf|hf|hf|hf|hf|hf|hf|hf|hf
    · rw [c1 f hf]; simp
    · rw [c2 f hf]; simp
    · rw [c3 f hf]; simp
    · rw [c4 f hf]; simp
    · rw [c5 f hf]; simp
    · rw [c6 f hf]; simp
    · rw [c7 f hf]; simp
    · rw [c8 f hf]; simp
    · rw [c9 f hf]; simp
    · rw [c10 f hf]; simp
    · rw [c11 f hf]; simp
  · have B1 : ∀ f ∈ s1, catIdx f.category ≤ 0 := bound_of_const c1 (by decide)
    have L2 : ∀ f ∈ s2, 0 ≤ catIdx f.category := lower_of_const c2 (by decide)
    have P2 := pairwise_cat_append (pairwise_const_cat c1)
      (pairwise_const_cat c2) B1 L2
    have B2 : ∀ f ∈ s1 ++ s2, catIdx f.category ≤ 1 :=
      bound_append (bound_of_const c1 (by decide)) (bound_of_const c2 (by decide))
    have L3 : ∀ f ∈ hrvBlock d.hrv, 1 ≤ catIdx f.category :=
      lower_of_const c3 (by decide)
    have P3 := pairwise_cat_append P2 (pairwise_const_cat c3) B2 L3
    have B3 : ∀ f ∈ s1 ++ s2 ++ hrvBlock d.hrv, catIdx f.category ≤ 1 :=
      bound_append B2 (bound_of_const c3 (by decide))
    have L4 : ∀ f ∈ r2, 1 ≤ catIdx f.category := lower_of_const c4 (by decide)
    have P4 := pairwise_cat_append P3 (pairwise_const_cat c4) B3 L4
    have B4 : ∀ f ∈ s1 ++ s2 ++ hrvBlock d.hrv ++ r2, catIdx f.category ≤ 1 :=
      bound_append B3 (bound_of_const c4 (by decide))
    have L5 : ∀ f ∈ r3, 1 ≤ catIdx f.category := lower_of_const c5 (by decide)
    have P5 := pairwise_cat_append P4 (pairwise_const_cat c5) B4 L5
    have B5 : ∀ f ∈ s1 ++ s2 ++ hrvBlock d.hrv ++ r2 ++ r3,
        catIdx f.category ≤ 2 :=
      bound_append (bound_mono B4 (by omega)) (bound_of_const c5 (by decide))
    have L6 : ∀ f ∈ sx, 2 ≤ catIdx f.category := lower_of_const c6 (by decide)
    have P6 := pairwise_cat_append P5 (pairwise_const_cat c6) B5 L6
    have B6 : ∀ f ∈ s1 ++ s2 ++ hrvBlock d.hrv ++ r2 ++ r3 ++ sx,
        catIdx f.category ≤ 3 :=
      bound_append (bound_mono B5 (by omega)) (bound_of_const c6 (by decide))
    have L7 : ∀ f ∈ bc, 3 ≤ catIdx f.category := lower_of_const c7 (by decide)
    have P7 := pairwise_cat_append P6 (pairwise_const_cat c7) B6 L7
    have B7 : ∀ f ∈ s1 ++ s2 ++ hrvBlock d.hrv ++ r2 ++ r3 ++ sx ++ bc,
        catIdx f.category ≤ 4 :=
      bound_append (bound_mono B6 (by omega)) (bound_of_const c7 (by decide))
    have L8 : ∀ f ∈ stepsBlock d.steps, 4 ≤ catIdx f.category :=
      lower_of_const c8 (by decide)
    have P8 := pairwise_cat_append P7 (pairwise_const_cat c8) B7 L8
    have B8 : ∀ f ∈ s1 ++ s2 ++ hrvBlock d.hrv ++ r2 ++ r3 ++ sx ++ bc ++
        stepsBlock d.steps, catIdx f.category ≤ 4 :=
      bound_append B7 (bound_of_const c8 (by decide))
    have L9 : ∀ f ∈ tlBlock d.training_load, 4 ≤ catIdx f.category :=
      lower_of_const c9 (by decide)
    have P9 := pairwise_cat_append P8 (pairwise_const_cat c9) B8 L9
    have B9 : ∀ f ∈ s1 ++ s2 ++ hrvBlock d.hrv ++ r2 ++ r3 ++ sx ++ bc ++
        stepsBlock d.steps ++ tlBlock d.training_load, catIdx f.category ≤ 4 :=
      bound_append B8 (bound_of_const c9 (by decide))
    have L10 : ∀ f ∈ vo2Block d.vo2max, 4 ≤ catIdx f.category :=
      lower_of_const c10 (by decide)
    have P10 := pairwise_cat_append P9 (pairwise_const_cat c10) B9 L10
    have B10 : ∀ f ∈ s1 ++ s2 ++ hrvBlock d.hrv ++ r2 ++ r3 ++ sx ++ bc ++
        stepsBlock d.steps ++ tlBlock d.training_load ++ vo2Block d.vo2max,
        catIdx f.category ≤ 5 :=
      bound_append (bound_mono B9 (by omega)) (bound_of_const c10 (by decide))
    have L11 : ∀ f ∈ corrBlock d.sleep_duration d.resting_hr d.hrv
        d.training_load, 5 ≤ catIdx f.category := lower_of_const c11 (by decide)
    exact pairwise_cat_append P10 (pairwise_const_cat c11) B10 L11

/-- Witness for C8: the ordering theorem applied to a set that fires both a
sleep finding and an activity finding. -/
theorem run_rules_category_order_witness :
    (∀ f ∈ (run_rules 0 orderWitnessSet).getD [], f.category ∈ ["sleep",
      "recovery", "stress", "body_composition", "activity", "correlation"]) ∧
    List.Pairwise (fun f g => catIdx f.category ≤ catIdx g.category)
      ((run_rules 0 orderWitnessSet).getD []) :=
  run_rules_category_order 0 orderWitnessSet _ (by with_unfolding_all rfl)

/-- A finding in a block carries one of the block's rule names. -/
theorem rule_mem_of_shape {part : List Finding} {names : List String}
    (hs : List.Sublist (part.map Finding.rule) names) {f : Finding}
    (hf : f ∈ part) : f.rule ∈ names :=
  hs.subset (List.mem_map_of_mem _ hf)

/-- Firing characterization of `hrv_below_baseline` inside the HRV block:
with at least 7 points and 30-day average `a`, the finding is emitted exactly
when `a` is truthy and the trailing run (within the last 10 points) strictly
below `a` has length at least 3; any emitted copy is a warning and carries
the run length as `consecutive_days`. -/
theorem hrvBlock_fires (hd : List MetricPoint) (h7 : 7 ≤ hd.length) (a : ℚ)
    (ha : avg (seriesValues hd) = some a) :
    (a ≠ 0 ∧ 3 ≤ consecutive_below hd a 10 →
      ∃ f ∈ hrvBlock hd, f.rule = "hrv_below_baseline" ∧
        f.severity = "warning" ∧
        f.data.lookup "consecutive_days" =
          some (some ((consecutive_below hd a 10 : ℕ) : ℚ)))
    ∧ (∀ f ∈ hrvBlock hd, f.rule = "hrv_below_baseline" →
        (a ≠ 0 ∧ 3 ≤ consecutive_below hd a 10) ∧ f.severity = "warning" ∧
          f.data.lookup "consecutive_days" =
            some (some ((consecutive_below hd a 10 : ℕ) : ℚ))) := by
  have hne : ¬ (hd = [] ∨ hd.length < 7) := by
    intro hc
    rcases hc with hc | hc
    · subst hc
      simp at h7
    · omega
  simp only [hrvBlock, if_neg hne, ha]
  constructor
  · intro ⟨ha0, hc⟩
    rw [if_pos ha0, if_pos hc]
    refine ⟨_, List.mem_append_left _ (List.mem_singleton_self _), rfl, rfl, ?_⟩
    simp [List.lookup]
  · intro f hf hr
    rw [List.mem_append] at hf
    rcases hf with hf | hf
    · by_cases ha0 : a ≠ 0
      · rw [if_pos ha0] at hf
        by_cases hc : 3 ≤ consecutive_below hd a 10
        · rw [if_pos hc] at hf
          simp at hf
          subst hf
          exact ⟨⟨ha0, hc⟩, rfl, by simp [List.lookup]⟩
        · rw [if_neg hc] at hf
          simp at hf
      · rw [if_neg ha0] at hf
        simp at hf
    · revert hf
      split <;> (try split) <;> intro hf2 <;> simp at hf2 <;> simp_all

/-- C6 (amended): for a metric set with at least 7 HRV points and 30-day
average `a`, `run_rules` emits the warning finding `hrv_below_baseline`
exactly when `a` is nonzero (Python truthiness) and the trailing consecutive
run of days within the last 10 strictly below `a` has length at least 3 —
not merely when any 3 of the last 10 days are below `a`; the finding's
`consecutive_days` datum is that trailing run length. -/
theorem hrv_below_baseline_characterization (today : ℤ) (d : MetricSet)
    (h7 : 7 ≤ d.hrv.length) (a : ℚ) (ha : avg (seriesValues d.hrv) = some a)
    (fs : List Finding) (h : run_rules today d = some fs) :
    ((∃ f ∈ fs, f.rule = "hrv_below_baseline") ↔
      (a ≠ 0 ∧ 3 ≤ consecutive_below d.hrv a 10)) ∧
    (∀ f ∈ fs, f.rule = "hrv_below_baseline" →
      f.severity = "warning" ∧
      f.data.lookup "consecutive_days" =
        some (some ((consecutive_below d.hrv a 10 : ℕ) : ℚ))) := by
  obtain ⟨s1, s2, r2, r3, sx, bc, h1, h2, h3, h4, h5, h6, hrun⟩ :=
    run_rules_decomp today d
  rw [hrun] at h
  injection h with h
  subst h
  have hfire := hrvBlock_fires d.hrv h7 a ha
  have e1 := (sleepDurBlock_shape _ _ h1).1
  have e2 := (sleepScoreBlock_shape _ _ h2).1
  have e4 := (rhrBlock_shape _ _ h3).1
  have e5 := (bbBlock_shape _ _ h4).1
  have e6 := (stressBlock_shape _ _ h5).1
  have e7 := (weightBlock_shape _ _ _ _ h6).1
  have e8 := (stepsBlock_shape d.steps).1
  have e9 := (tlBlock_shape d.training_load).1
  have e10 := (vo2Block_shape d.vo2max).1
  have e11 := (corrBlock_shape d.sleep_duration d.resting_hr d.hrv
    d.training_load).1
  constructor
  · constructor
    · rintro ⟨f, hf, hr⟩
      simp only [List.append_assoc, List.mem_append] at hf
      rcases hf with hf|hf|hf|hf|hf|hf|hf|hf|hf|hf|hf
      · have := rule_mem_of_shape e1 hf
        rw [hr] at this
        simp at this
      · have := rule_mem_of_shape e2 hf
        rw [hr] at this
        simp at this
      · exact (hfire.2 f hf hr).1
      · have := rule_mem_of_shape e4 hf
        rw [hr] at this
        simp at this
      · have := rule_mem_of_shape e5 hf
        rw [hr] at this
        simp at this
      · have := rule_mem_of_shape e6 hf
        rw [hr] at this
        simp at this
      · have := rule_mem_of_shape e7 hf
        rw [hr] at this
        simp at this
      · have := rule_mem_of_shape e8 hf
        rw [hr] at this
        simp at this
      · have := rule_mem_of_shape e9 hf
        rw [hr] at this
        simp at this
      · have := rule_mem_of_shape e10 hf
        rw [hr] at this
        simp at this
      · have := rule_mem_of_shape e11 hf
        rw [hr] at this
        simp at this
    · intro hcond
      obtain ⟨f, hf, hr, _, _⟩ := hfire.1 hcond
      refine ⟨f, ?_, hr⟩
      simp only [List.append_assoc, List.mem_append]
      exact Or.inr (Or.inr (Or.inl hf))
  · intro f hf hr
    simp only [List.append_assoc, List.mem_append] at hf
    rcases hf with hf|hf|hf|hf|hf|hf|hf|hf|hf|hf|hf
    · have := rule_mem_of_shape e1 hf
      rw [hr] at this
      simp at this
    · have := rule_mem_of_shape e2 hf
      rw [hr] at this
      simp at this
    · exact (hfire.2 f hf hr).2
    · have := rule_mem_of_shape e4 hf
      rw [hr] at this
      simp at this
    · have := rule_mem_of_shape e5 hf
      rw [hr] at this
      simp at this
    · have := rule_mem_of_shape e6 hf
      rw [hr] at this
      simp at this
    · have := rule_mem_of_shape e7 hf
      rw [hr] at this
      simp at this
    · have := rule_mem_of_shape e8 hf
      rw [hr] at this
      simp at this
    · have := rule_mem_of_shape e9 hf
      rw [hr] at this
      simp at this
    · have := rule_mem_of_shape e10 hf
      rw [hr] at this
      simp at this
    · have := rule_mem_of_shape e11 hf
      rw [hr] at this
      simp at this

set_option maxRecDepth 100000 in
/-- Witness for C6: on 20 days of HRV 50 followed by 7 days of 30 (30-day
average 1210/27), the characterization produces the warning finding with
`consecutive_days = 7`. -/
theorem hrv_below_baseline_witness :
    ∃ f ∈ (run_rules 0 hrvExampleSet).getD [], f.rule = "hrv_below_baseline" ∧
      f.severity = "warning" ∧
      f.data.lookup "consecutive_days" = some (some 7) := by
  have hchar := hrv_below_baseline_characterization 0 hrvExampleSet
    (by decide) (1210/27) (by with_unfolding_all decide) _
    (by with_unfolding_all rfl)
  have hcons : consecutive_below hrvExampleSet.hrv (1210/27) 10 = 7 := by
    with_unfolding_all decide
  obtain ⟨f, hf, hr⟩ := hchar.1.mpr ⟨by norm_num, by rw [hcons]; norm_num⟩
  obtain ⟨hsev, hdata⟩ := hchar.2 f hf hr
  refine ⟨f, hf, hr, hsev, ?_⟩
  rw [hdata, hcons]
  norm_num

set_option maxRecDepth 100000 in
/-- C6 (counterexample): seven HRV points [10, 10, 10, 100, 100, 100, 100]
put 3 of the last 10 days below the 30-day average 430/7, yet `run_rules`
emits no finding at all — the trailing consecutive run below the average is
empty, so `hrv_below_baseline` does not fire although the claim's
"at least 3 of the last 10 days" condition holds. -/
theorem hrv_below_baseline_counterexample :
    7 ≤ hrvScatteredSet.hrv.length ∧
    avg (seriesValues hrvScatteredSet.hrv) = some (430/7) ∧
    3 ≤ ((lastSlice hrvScatteredSet.hrv 10).filter
      (fun p => decide (p.value < 430/7))).length ∧
    run_rules 0 hrvScatteredSet = some [] := by
  with_unfolding_all decide

/-- Firing characterization of `steps_low` inside the steps block: with at
least 7 points and 7-day average `a`, the info finding is emitted exactly
when `a` is truthy (nonzero) and below 7000. -/
theorem stepsBlock_fires (sd : List MetricPoint) (h7 : 7 ≤ sd.length) (a : ℚ)
    (ha : avg (recent_values sd 7) = some a) :
    (a ≠ 0 ∧ a < 7000 →
      ∃ f ∈ stepsBlock sd, f.rule = "steps_low" ∧ f.severity = "info")
    ∧ (∀ f ∈ stepsBlock sd, f.rule = "steps_low" →
        (a ≠ 0 ∧ a < 7000) ∧ f.severity = "info") := by
  have hne : ¬ (sd = [] ∨ sd.length < 7) := by
    intro hc
    rcases hc with hc | hc
    · subst hc
      simp at h7
    · omega
  simp only [stepsBlock, if_neg hne, ha]
  constructor
  · intro hcond
    rw [if_pos hcond]
    exact ⟨_, List.mem_singleton_self _, rfl, rfl⟩
  · intro f hf hr
    by_cases hcond : a ≠ 0 ∧ a < 7000
    · rw [if_pos hcond] at hf
      simp at hf
      subst hf
      exact ⟨hcond, rfl⟩
    · rw [if_neg hcond] at hf
      simp at hf

/-- C7 (amended): for a metric set with at least 7 step points and 7-day
average `a`, `run_rules` emits the info finding `steps_low` exactly when `a`
is nonzero (Python truthiness — a zero average is falsy and skips the
detector) and below 7000; so detectors skip on missing data and additionally
on a falsy (zero) computed average. -/
theorem steps_low_characterization (today : ℤ) (d : MetricSet)
    (h7 : 7 ≤ d.steps.length) (a : ℚ) (ha : avg (recent_values d.steps 7) = some a)
    (fs : List Finding) (h : run_rules today d = some fs) :
    ((∃ f ∈ fs, f.rule = "steps_low") ↔ (a ≠ 0 ∧ a < 7000)) ∧
    (∀ f ∈ fs, f.rule = "steps_low" → f.severity = "info") := by
  obtain ⟨s1, s2, r2, r3, sx, bc, h1, h2, h3, h4, h5, h6, hrun⟩ :=
    run_rules_decomp today d
  rw [hrun] at h
  injection h with h
  subst h
  have hfire := stepsBlock_fires d.steps h7 a ha
  have e1 := (sleepDurBlock_shape _ _ h1).1
  have e2 := (sleepScoreBlock_shape _ _ h2).1
  have e3 := (hrvBlock_shape d.hrv).1
  have e4 := (rhrBlock_shape _ _ h3).1
  have e5 := (bbBlock_shape _ _ h4).1
  have e6 := (stressBlock_shape _ _ h5).1
  have e7 := (weightBlock_shape _ _ _ _ h6).1
  have e9 := (tlBlock_shape d.training_load).1
  have e10 := (vo2Block_shape d.vo2max).1
  have e11 := (corrBlock_shape d.sleep_duration d.resting_hr d.hrv
    d.training_load).1
  constructor
  · constructor
    · rintro ⟨f, hf, hr⟩
      simp only [List.append_assoc, List.mem_append] at hf
      rcases hf with hf|hf|hf|hf|hf|hf|hf|hf|hf|hf|hf
      · have := rule_mem_of_shape e1 hf
        rw [hr] at this
        simp at this
      · have := rule_mem_of_shape e2 hf
        rw [hr] at this
        simp at this
      · have := rule_mem_of_shape e3 hf
        rw [hr] at this
        simp at this
      · have := rule_mem_of_shape e4 hf
        rw [hr] at this
        simp at this
      · have := rule_mem_of_shape e5 hf
        rw [hr] at this
        simp at this
      · have := rule_mem_of_shape e6 hf
        rw [hr] at this
        simp at this
      · have := rule_mem_of_shape e7 hf
        rw [hr] at this
        simp at this
      · exact (hfire.2 f hf hr).1
      · have := rule_mem_of_shape e9 hf
        rw [hr] at this
        simp at this
      · have := rule_mem_of_shape e10 hf
        rw [hr] at this
        simp at this
      · have := rule_mem_of_shape e11 hf
        rw [hr] at this
        simp at this
    · intro hcond
      obtain ⟨f, hf, hr, _⟩ := hfire.1 hcond
      refine ⟨f, ?_, hr⟩
      simp only [List.append_assoc, List.mem_append]
      exact Or.inr (Or.inr (Or.inr (Or.inr (Or.inr (Or.inr (Or.inr
        (Or.inl hf)))))))
  · intro f hf hr
    simp only [List.append_assoc, List.mem_append] at hf
    rcases hf with hf|hf|hf|hf|hf|hf|hf|hf|hf|hf|hf
    · have := rule_mem_of_shape e1 hf
      rw [hr] at this
      simp at this
    · have := rule_mem_of_shape e2 hf
      rw [hr] at this
      simp at this
    · have := rule_mem_of_shape e3 hf
      rw [hr] at this
      simp at this
    · have := rule_mem_of_shape e4 hf
      rw [hr] at this
      simp at this
    · have := rule_mem_of_shape e5 hf
      rw [hr] at this
      simp at this
    · have := rule_mem_of_shape e6 hf
      rw [hr] at this
      simp at this
    · have := rule_mem_of_shape e7 hf
      rw [hr] at this
      simp at this
    · exact (hfire.2 f hf hr).2
    · have := rule_mem_of_shape e9 hf
      rw [hr] at this
      simp at this
    · have := rule_mem_of_shape e10 hf
      rw [hr] at this
      simp at this
    · have := rule_mem_of_shape e11 hf
      rw [hr] at this
      simp at this

set_option maxRecDepth 100000 in
/-- Witness for C7: seven days of 50 steps fire the `steps_low` info
finding through the characterization. -/
theorem steps_low_witness :
    ∃ f ∈ (run_rules 0 lowStepsSet).getD [], f.rule = "steps_low" := by
  have hchar := steps_low_characterization 0 lowStepsSet (by decide) 50
    (by with_unfolding_all decide) _ (by with_unfolding_all rfl)
  exact hchar.1.mpr ⟨by norm_num, by norm_num⟩

set_option maxRecDepth 100000 in
/-- C7 (counterexample): seven days of zero steps have 7-day average 0,
which is below 7000, yet `run_rules` emits nothing — the zero average is
falsy in Python, so `steps_low` does not fire although the claim's
"average below 7000" condition holds. -/
theorem steps_low_counterexample :
    7 ≤ zeroStepsSet.steps.length ∧
    avg (recent_values zeroStepsSet.steps 7) = some 0 ∧
    (0 : ℚ) < 7000 ∧
    run_rules 0 zeroStepsSet = some [] := by
  with_unfolding_all decide

/-- C2: `get_llm_recommendations` never raises to its caller: when the
response parses to a list the result is its first 5 items; in every other
outcome — no API key and no base URL, missing client library, a failing
call, unparseable JSON, or a non-list JSON value — it is exactly the
deterministic rules-derived rendering of the first 5 findings, with title
the rule identifier with underscores replaced by spaces and title-cased,
text the finding message, severity the finding severity, and metrics the
one-element list holding the finding category. -/
theorem get_llm_recommendations_spec (llm : LLMEnv) (findings : List Finding)
    (data : MetricSet) :
    (∀ recs, llm = LLMEnv.ok recs →
      get_llm_recommendations llm findings data = recs.take 5 ∧
      (get_llm_recommendations llm findings data).length ≤ 5) ∧
    ((∀ recs, llm ≠ LLMEnv.ok recs) →
      get_llm_recommendations llm findings data =
        (findings.take 5).map (fun f =>
          { title := pyTitle (underscoresToSpaces f.rule), text := f.message,
            severity := f.severity, metrics := [f.category] })) := by
  constructor
  · rintro recs rfl
    constructor
    · rfl
    · show (recs.take 5).length ≤ 5
      rw [List.length_take]
      exact min_le_left _ _
  · intro hne
    cases llm with
    | ok recs => exact absurd rfl (hne recs)
    | unconfigured => rfl
    | libraryMissing => rfl
    | callFailed => rfl
    | notJson => rfl
    | notAList => rfl

/-- Witness for C2: the unconfigured layer renders a steps finding with the
humanized title. -/
theorem get_llm_recommendations_witness :
    get_llm_recommendations LLMEnv.unconfigured [exampleFinding]
      emptyMetricSet =
      [{ title := "Steps Low",
         text := "Daily step average this week is 50, below 7,000 target",
         severity := "info", metrics := ["activity"] }] := by
  have h := (get_llm_recommendations_spec LLMEnv.unconfigured [exampleFinding]
    emptyMetricSet).2 (fun recs hc => LLMEnv.noConfusion hc)
  rw [h]
  with_unfolding_all decide

/-- C9: `get_rules_only` recomputes the findings from the current metric set
and returns them together with their count; it never invokes the narrative
generator (the call counter is untouched) and never reads or writes the
cache slot — for every prior pipeline state the state comes back unchanged. -/
theorem get_rules_only_frame (env : RecoEnv) (data : MetricSet)
    (st : PipelineState) :
    ∃ findings, run_rules env.today data = some findings ∧
      get_rules_only env data st = some ((findings, findings.length), st) := by
  obtain ⟨s1, s2, r2, r3, sx, bc, _, _, _, _, _, _, hrun⟩ :=
    run_rules_decomp env.today data
  refine ⟨_, hrun, ?_⟩
  simp [get_rules_only, hrun, bind]

/-- C1: `get_recommendations(force)` returns the cached recommendations
verbatim with `cached = true` exactly when `force` is false, the stored hash
equals the hash of the current data, the entry is strictly younger than the
6-hour TTL, and the stored list is non-empty; in every other case —
including `force = true` with unchanged data inside the TTL — it recomputes
via the rules engine and narrative generator, overwrites the single cache
slot with the fresh entry, and returns the fresh result with
`cached = false`. -/
theorem get_recommendations_cache_spec (env : RecoEnv) (data : MetricSet)
    (force : Bool) (st : PipelineState) :
    ((force = false ∧ st.cache.hash = some (env.dataHash data) ∧
        env.now - st.cache.timestamp < CACHE_TTL ∧
        ∃ r, st.cache.recommendations = some r ∧ r ≠ []) →
      ∀ r, st.cache.recommendations = some r →
        get_recommendations env data force st =
          some ({ recommendations := r, cached := true,
                  generated_at := st.cache.timestamp }, st)) ∧
    (¬ (force = false ∧ st.cache.hash = some (env.dataHash data) ∧
        env.now - st.cache.timestamp < CACHE_TTL ∧
        ∃ r, st.cache.recommendations = some r ∧ r ≠ []) →
      ∃ findings, run_rules env.today data = some findings ∧
        get_recommendations env data force st =
          some ({ recommendations :=
                    get_llm_recommendations env.llm findings data,
                  cached := false, generated_at := env.now },
                { cache := { hash := some (env.dataHash data),
                             timestamp := env.now,
                             recommendations := some
                               (get_llm_recommendations env.llm findings data) },
                  llmCalls := st.llmCalls + 1 })) := by
  have htruth : (truthyRecs st.cache.recommendations = true) ↔
      (∃ r, st.cache.recommendations = some r ∧ r ≠ []) := by
    cases hrec : st.cache.recommendations with
    | none => simp [truthyRecs]
    | some l =>
      cases l with
      | nil => simp [truthyRecs]
      | cons a t => simp [truthyRecs]
  constructor
  · rintro ⟨hf, hh, ht, hr⟩ r hrec
    unfold get_recommendations
    rw [if_pos ⟨hf, hh, ht, htruth.mpr hr⟩, hrec]
    rfl
  · intro hc
    obtain ⟨s1, s2, r2, r3, sx, bc, _, _, _, _, _, _, hrun⟩ :=
      run_rules_decomp env.today data
    refine ⟨_, hrun, ?_⟩
    unfold get_recommendations
    rw [if_neg (fun hcode => hc
      ⟨hcode.1, hcode.2.1, hcode.2.2.1, htruth.mp hcode.2.2.2⟩)]
    simp [hrun, bind]

/-- Witness for C1: with a matching hash, a 100-second-old entry and a
non-empty stored list, the cache is served verbatim and untouched. -/
theorem get_recommendations_cache_witness :
    get_recommendations witEnv emptyMetricSet false witCacheState =
      some ({ recommendations := [witRec], cached := true, generated_at := 0 },
            witCacheState) :=
  (get_recommendations_cache_spec witEnv emptyMetricSet false witCacheState).1
    ⟨rfl, rfl, by norm_num [witEnv, witCacheState, CACHE_TTL],
      ⟨[witRec], rfl, by simp⟩⟩ [witRec] rfl

end VitalForge
